import Mathlib

/-!
# Verification of the Drago tone-mapping operator (src/src/operators/drago.h)

Shallow embedding of `DragoOperator` over the real numbers.  The C++ source
works in single-precision floating point; here every `float` is modelled as
a real number, `std::log` as `Real.log`, `std::pow` as `Real.rpow`, and
`std::log10 x` as `Real.log x / Real.log 10`.  The byte cast
`(uint8_t) clamp(255.f * x, 0.f, 255.f)` truncates a value already clamped
into `[0, 255]`, i.e. it is the integer floor.
-/

noncomputable section

/-- Modelled from the spec: `Parameter` lives in `tonemap.h`, which is not
among the analyzed sources.  Spec §3/§4.1 give it two construction forms: a
full bounded control (value + inclusive range + short label + description)
and a computed form (value + label only, no editable range) used for the
image statistics `Lwa` and `Lwmax`. -/
inductive Parameter where
  | bounded (value minimum maximum : ℝ) (shortLabel description : String)
  | computed (value : ℝ) (shortLabel : String)

/-- The `value` attribute of a parameter (read accessor of spec §4.1). -/
def Parameter.value : Parameter → ℝ
  | .bounded v _ _ _ _ => v
  | .computed v _ => v

/-- Modelled from the spec: the `Image` interface of spec §6 — the core only
uses `getSize`, `ref(row, col)` (linear-light RGB floats), and the two
statistics `getLogAverageLuminance` / `getMaximumLuminance`. -/
structure Image where
  width : ℕ
  height : ℕ
  pix : ℕ → ℕ → ℝ × ℝ × ℝ
  logAverageLuminance : ℝ
  maximumLuminance : ℝ

/-- Operator state: the parameter map (string key to `Parameter`, as the
C++ `std::map<std::string, Parameter> parameters`), plus the `name`,
`description` and shader fields of the `TonemapOperator` base.  The shader
program text itself is modelled separately by the transliterated pure
functions `DragoOperator.clampedValue`, `DragoOperator.gammaCorrect` and
`DragoOperator.shaderMain` below; the state only keeps the shader's name. -/
structure DragoState where
  params : String → Option Parameter
  name : String
  description : String
  shaderName : String

namespace DragoOperator

/-- `parameters.at(key).value` — reading a stored parameter's value.  The
C++ `std::map::at` would throw on a missing key; no claim exercises that
path, so a missing key is given the neutral value `0`. -/
def atValue (st : DragoState) (k : String) : ℝ :=
  match st.params k with
  | some p => p.value
  | none => 0

/-- The `DragoOperator` constructor (drago.h lines 7–67): the five static
bounded parameters, the operator name and description, and the shader name.
The GLSL text is modelled by `shaderMain`/`gammaCorrect`/`clampedValue`. -/
def construct : DragoState where
  params := fun k =>
    if k = "Gamma" then some (.bounded 2.2 0 10 "gamma" "Gamma correction value")
    else if k = "slope" then some (.bounded 4.5 0 10 "slope" "Additional Gamma correction parameter")
    else if k = "start" then some (.bounded 0.018 0 2 "start" "Additional Gamma correction parameter")
    else if k = "Ldmax" then some (.bounded 100 0 200 "Ldmax" "Maximum luminance capability of the display")
    else if k = "b" then some (.bounded 0.85 0 1 "b" "Bias function parameter")
    else none
  name := "Drago"
  description := "Drago Mapping"
  shaderName := "Drago"

/-- `DragoOperator::setParameters` (drago.h lines 69–72): overwrite the two
entries `"Lwa"` and `"Lwmax"` of the parameter map with computed-form
parameters holding the image's log-average and maximum luminance. -/
def setParameters (st : DragoState) (image : Image) : DragoState :=
  { st with
    params := fun k =>
      if k = "Lwa" then some (.computed image.logAverageLuminance "Lwa")
      else if k = "Lwmax" then some (.computed image.maximumLuminance "Lwmax")
      else st.params k }

/-- `DragoOperator::map` (drago.h lines 115–131), the CPU per-channel
mapping function, argument for argument:
`map(v, exposure, gamma, Ldmax, Lwa, Lwmax, b, start, slope)`. -/
def map (v exposure gamma Ldmax Lwa Lwmax b start slope : ℝ) : ℝ :=
  let LwaP := exposure * Lwa / (1 + b - 0.85) ^ (5 : ℝ)
  let LwmaxP := exposure * Lwmax / LwaP
  let value := exposure * v / LwaP
  let exponent := Real.log b / Real.log 0.5
  let c1 := 0.01 * Ldmax / (Real.log (1 + LwmaxP) / Real.log 10)
  let c2 := Real.log (1 + value) / Real.log (2 + 8 * (value / LwmaxP) ^ exponent)
  let value2 := c1 * c2
  if value2 ≤ start then slope * value2
  else (1.099 * value2) ^ ((0.9 : ℝ) / gamma) - 0.099

/-- The eight-step Drago algorithm exactly as worded in spec §4.3
(steps 1–8), written from the spec's formulas: natural-number power for
`(1 + b − 0.85)^5` and `log10` for the display-scale constant. -/
def specMap (v exposure gamma Ldmax Lwa Lwmax b start slope : ℝ) : ℝ :=
  let LwaP := exposure * Lwa / (1 + b - 0.85) ^ (5 : ℕ)
  let LwmaxP := exposure * Lwmax / LwaP
  let value := exposure * v / LwaP
  let exponent := Real.log b / Real.log 0.5
  let c1 := 0.01 * Ldmax / Real.logb 10 (1 + LwmaxP)
  let c2 := Real.log (1 + value) / Real.log (2 + 8 * (value / LwmaxP) ^ exponent)
  let value2 := c1 * c2
  if value2 ≤ start then slope * value2
  else (1.099 * value2) ^ ((0.9 : ℝ) / gamma) - 0.099

/-- `DragoOperator::graph` (drago.h lines 102–112): read the seven stored
parameter values and feed the input through `map` with exposure `1`. -/
def graph (st : DragoState) (value : ℝ) : ℝ :=
  let gamma := atValue st "Gamma"
  let Ldmax := atValue st "Ldmax"
  let Lwa := atValue st "Lwa"
  let Lwmax := atValue st "Lwmax"
  let b := atValue st "b"
  let start := atValue st "start"
  let slope := atValue st "slope"
  map value 1 gamma Ldmax Lwa Lwmax b start slope

/-- The byte written per channel by `process` (drago.h lines 93–95):
`(uint8_t) clamp(255.f * x, 0.f, 255.f)`, i.e. clamp into `[0, 255]` and
truncate — the floor, since the clamped value is nonnegative. -/
def quantByte (x : ℝ) : ℤ := ⌊min (max (255 * x) 0) 255⌋

/-- The three bytes `R, G, B` one pixel contributes to the destination
buffer (drago.h lines 89–95). -/
def pixBytes (exposure gamma Ldmax Lwa Lwmax b start slope : ℝ)
    (px : ℝ × ℝ × ℝ) : List ℤ :=
  [quantByte (map px.1 exposure gamma Ldmax Lwa Lwmax b start slope),
   quantByte (map px.2.1 exposure gamma Ldmax Lwa Lwmax b start slope),
   quantByte (map px.2.2 exposure gamma Ldmax Lwa Lwmax b start slope)]

/-- The observable state of one `process` call: the bytes written so far to
the destination buffer, the current value of the progress sink, and the
trace of every value written to the progress sink. -/
structure ProcResult where
  bytes : List ℤ
  progress : ℝ
  trace : List ℝ

/-- One iteration of the inner pixel loop (drago.h lines 89–97): append the
pixel's three bytes, add `delta` to the progress sink, record the write. -/
def procStep (exposure gamma Ldmax Lwa Lwmax b start slope delta : ℝ)
    (r : ProcResult) (px : ℝ × ℝ × ℝ) : ProcResult where
  bytes := r.bytes ++ pixBytes exposure gamma Ldmax Lwa Lwmax b start slope px
  progress := r.progress + delta
  trace := r.trace ++ [r.progress + delta]

/-- The pixel visit order of `process`'s double loop (drago.h lines 87–88):
row index `i` outer over `height`, column index `j` inner over `width`. -/
def pixelOrder (w h : ℕ) : List (ℕ × ℕ) :=
  (List.range h).flatMap (fun i => (List.range w).map (fun j => (i, j)))

/-- `DragoOperator::process` (drago.h lines 74–100): write `0` to the
progress sink, set `delta = 1 / (width·height)`, read the seven parameter
values, then run the row-major double loop.  The initial trace `[0]`
records the `*progress = 0.f` write before the loop. -/
def process (st : DragoState) (image : Image) (exposure : ℝ) : ProcResult :=
  let delta := 1 / ((image.width : ℝ) * (image.height : ℝ))
  let gamma := atValue st "Gamma"
  let Ldmax := atValue st "Ldmax"
  let Lwa := atValue st "Lwa"
  let Lwmax := atValue st "Lwmax"
  let b := atValue st "b"
  let start := atValue st "start"
  let slope := atValue st "slope"
  List.foldl (procStep exposure gamma Ldmax Lwa Lwmax b start slope delta)
    ⟨[], 0, [0]⟩
    ((pixelOrder image.width image.height).map (fun ij => image.pix ij.1 ij.2))

/-- The fragment shader's `clampedValue` (drago.h lines 41–44), per
channel: `clamp(color, 0.0, 1.0)` (alpha handling has no per-channel
counterpart). -/
def clampedValue (x : ℝ) : ℝ := min (max x 0) 1

/-- The fragment shader's `gammaCorrect` (drago.h lines 46–53), which is
also the final gamma-correction step of the CPU `map` (lines 125–130):
`v ≤ start` selects the linear branch, else the gamma branch. -/
def gammaCorrect (gamma start slope v : ℝ) : ℝ :=
  if v ≤ start then slope * v
  else (1.099 * v) ^ ((0.9 : ℝ) / gamma) - 0.099

/-- The fragment shader's `main` (drago.h lines 55–65), transliterated as a
pure per-channel function: the same steps 1–7 as the CPU `map`, then
`clampedValue`, then `gammaCorrect` — clamping BEFORE gamma correction. -/
def shaderMain (v exposure gamma Ldmax Lwa Lwmax b start slope : ℝ) : ℝ :=
  let LwaP := exposure * Lwa / (1 + b - 0.85) ^ (5 : ℝ)
  let LwmaxP := exposure * Lwmax / LwaP
  let color := exposure * v / LwaP
  let exponent := Real.log b / Real.log 0.5
  let c1 := 0.01 * Ldmax / (Real.log (1 + LwmaxP) / Real.log 10)
  let c2 := Real.log (color + 1) / Real.log (2 + 8 * (color / LwmaxP) ^ exponent)
  let color2 := c1 * c2
  gammaCorrect gamma start slope (clampedValue color2)

end DragoOperator

/-! ## Concrete fixtures used by counterexamples and witnesses -/

/-- A 1×1 image whose single pixel carries the linear value `v` on all
three channels (the image statistics are never read by `process`). -/
def monoImage (v : ℝ) : Image where
  width := 1
  height := 1
  pix := fun _ _ => (v, v, v)
  logAverageLuminance := 0
  maximumLuminance := 0

/-- A small 3×2 image with distinguishable pixel channels. -/
def gridImage : Image where
  width := 3
  height := 2
  pix := fun i j => ((i : ℝ), (j : ℝ), (i : ℝ) + (j : ℝ))
  logAverageLuminance := 0.5
  maximumLuminance := 2

/-- An image with zero pixels (width 0). -/
def emptyImage : Image where
  width := 0
  height := 4
  pix := fun _ _ => (0, 0, 0)
  logAverageLuminance := 0
  maximumLuminance := 0

/-- A concrete parameter map: `Gamma = 2.2`, `slope = 0.5`, `start = 2`,
`Ldmax = 100`, `b = 0.85` (all inside their UI ranges), with image
statistics `Lwa = 1`, `Lwmax = 4`. -/
def cexParams : String → Option Parameter := fun k =>
  if k = "Gamma" then some (.bounded 2.2 0 10 "gamma" "Gamma correction value")
  else if k = "slope" then some (.bounded 0.5 0 10 "slope" "slope")
  else if k = "start" then some (.bounded 2 0 2 "start" "start")
  else if k = "Ldmax" then some (.bounded 100 0 200 "Ldmax" "Ldmax")
  else if k = "b" then some (.bounded 0.85 0 1 "b" "Bias function parameter")
  else if k = "Lwa" then some (.computed 1 "Lwa")
  else if k = "Lwmax" then some (.computed 4 "Lwmax")
  else none

/-- A concrete operator state built over `cexParams`. -/
def cexState : DragoState where
  params := cexParams
  name := "Drago"
  description := "Drago Mapping"
  shaderName := "Drago"

open DragoOperator

/-! ## Helper lemmas -/

/-- Closed-form evaluation of `map` in the self-maximum configuration
`exposure = 1`, `Lwa = 1`, `b = 0.85`, `v = Lwmax = L`: the bias
denominator is `1`, the normalized value equals the adapted maximum, and
the two logarithm quotients cancel, leaving `0.01·Ldmax` at step 7. -/
lemma map_selfmax (gamma Ld L stt sl : ℝ) (hL : 0 < L) :
    DragoOperator.map L 1 gamma Ld 1 L 0.85 stt sl =
      (if 0.01 * Ld ≤ stt then sl * (0.01 * Ld)
       else (1.099 * (0.01 * Ld)) ^ ((0.9 : ℝ) / gamma) - 0.099) := by
  simp only [DragoOperator.map]
  rw [show ((1:ℝ) + 0.85 - 0.85) = 1 by norm_num, Real.one_rpow]
  rw [show (1:ℝ) * L / (1 * 1 / 1) = L by field_simp]
  rw [div_self hL.ne', Real.one_rpow]
  rw [show (2:ℝ) + 8 * 1 = 10 by norm_num]
  have hlog : Real.log (1 + L) / Real.log 10 ≠ 0 := by
    apply div_ne_zero
    · exact (Real.log_pos (by linarith)).ne'
    · exact (Real.log_pos (by norm_num)).ne'
  rw [div_mul_cancel₀ (0.01 * Ld) hlog]

/-- The same closed-form evaluation for the shader transliteration. -/
lemma shaderMain_selfmax (gamma Ld L stt sl : ℝ) (hL : 0 < L) :
    DragoOperator.shaderMain L 1 gamma Ld 1 L 0.85 stt sl =
      DragoOperator.gammaCorrect gamma stt sl (DragoOperator.clampedValue (0.01 * Ld)) := by
  simp only [DragoOperator.shaderMain]
  rw [show ((1:ℝ) + 0.85 - 0.85) = 1 by norm_num, Real.one_rpow]
  rw [show (1:ℝ) * L / (1 * 1 / 1) = L by field_simp]
  rw [div_self hL.ne', Real.one_rpow]
  rw [show (2:ℝ) + 8 * 1 = 10 by norm_num]
  rw [add_comm L 1]
  have hlog : Real.log (1 + L) / Real.log 10 ≠ 0 := by
    apply div_ne_zero
    · exact (Real.log_pos (by linarith)).ne'
    · exact (Real.log_pos (by norm_num)).ne'
  rw [div_mul_cancel₀ (0.01 * Ld) hlog]

/-- At default parameters the gamma branch evaluated at `start = 0.018`
exceeds `0.2 + 0.099 - 0.099 = 0.2` before the offset: rigorous lower
bound via `(x^(9/22))^22 = x^9` and an exact rational comparison. -/
lemma gamma_branch_lower_bound : (0.2 : ℝ) < (1.099 * 0.018 : ℝ) ^ ((0.9 : ℝ) / 2.2) := by
  have hx : (0:ℝ) ≤ 1.099 * 0.018 := by norm_num
  rw [show ((0.9:ℝ) / 2.2) = ((9:ℝ) / 22) by norm_num]
  have key : (((1.099 * 0.018 : ℝ) ^ ((9:ℝ)/22)) : ℝ) ^ (22:ℕ) = (1.099 * 0.018 : ℝ) ^ (9:ℕ) := by
    rw [← Real.rpow_natCast ((1.099 * 0.018 : ℝ) ^ ((9:ℝ)/22)) 22, ← Real.rpow_mul hx]
    rw [show ((9:ℝ)/22 * ((22:ℕ):ℝ)) = ((9:ℕ):ℝ) by norm_num, Real.rpow_natCast]
  apply lt_of_pow_lt_pow_left₀ 22 (Real.rpow_nonneg hx _)
  rw [key]
  norm_num

/-- The destination bytes accumulated by the pixel loop: folding
`procStep` appends, pixel by pixel, the three bytes of each pixel. -/
lemma procFold_bytes (e gamma Ld Lwa Lwmax b stt sl d : ℝ)
    (l : List (ℝ × ℝ × ℝ)) (r : ProcResult) :
    (List.foldl (procStep e gamma Ld Lwa Lwmax b stt sl d) r l).bytes =
      r.bytes ++ l.flatMap (pixBytes e gamma Ld Lwa Lwmax b stt sl) := by
  induction l generalizing r with
  | nil => simp
  | cons a t ih => simp [ih, procStep]

/-- The progress sink after folding the pixel loop over `l` has advanced
by `l.length` increments of `d`. -/
lemma procFold_progress (e gamma Ld Lwa Lwmax b stt sl d : ℝ)
    (l : List (ℝ × ℝ × ℝ)) (r : ProcResult) :
    (List.foldl (procStep e gamma Ld Lwa Lwmax b stt sl d) r l).progress =
      r.progress + l.length * d := by
  induction l generalizing r with
  | nil => simp
  | cons a t ih =>
    rw [List.foldl_cons, ih]
    simp only [procStep, List.length_cons]
    push_cast
    ring

/-- The progress-sink write trace produced by the pixel loop: one write of
`r.progress + (k+1)·d` for the `k`-th pixel of `l`. -/
lemma procFold_trace (e gamma Ld Lwa Lwmax b stt sl d : ℝ)
    (l : List (ℝ × ℝ × ℝ)) (r : ProcResult) :
    (List.foldl (procStep e gamma Ld Lwa Lwmax b stt sl d) r l).trace =
      r.trace ++ (List.range l.length).map
        (fun k : ℕ => r.progress + ((k : ℝ) + 1) * d) := by
  induction l generalizing r with
  | nil => simp
  | cons a t ih =>
    rw [List.foldl_cons, ih]
    simp only [procStep, List.length_cons]
    rw [List.range_succ_eq_map, List.map_cons, List.map_map, List.append_assoc,
      List.singleton_append]
    congr 1
    congr 1
    · push_cast; ring
    · apply List.map_congr_left
      intro k _
      simp only [Function.comp_apply]
      push_cast
      ring

/-- Each pixel contributes exactly three bytes. -/
lemma pixBytes_length (e gamma Ld Lwa Lwmax b stt sl : ℝ) (px : ℝ × ℝ × ℝ) :
    (pixBytes e gamma Ld Lwa Lwmax b stt sl px).length = 3 := rfl

/-- Length of a flat-map whose chunks all have length three. -/
lemma flatMap_length_three {α β : Type} (f : α → List β)
    (hf : ∀ a, (f a).length = 3) (l : List α) :
    (l.flatMap f).length = 3 * l.length := by
  induction l with
  | nil => simp
  | cons a t ih =>
    rw [List.flatMap_cons, List.length_append, hf, ih, List.length_cons]
    ring

/-- Indexing into a flat-map of length-three chunks: byte `3·k + c` of the
buffer is byte `c` of chunk `k`. -/
lemma flatMap_getElem_three {α β : Type} (f : α → List β)
    (hf : ∀ a, (f a).length = 3) (l : List α) (k : ℕ) (a : α)
    (hk : l[k]? = some a) (c : ℕ) (hc : c < 3) :
    (l.flatMap f)[3 * k + c]? = (f a)[c]? := by
  induction l generalizing k with
  | nil => simp at hk
  | cons x t ih =>
    cases k with
    | zero =>
      simp only [List.getElem?_cons_zero, Option.some.injEq] at hk
      subst hk
      rw [List.flatMap_cons, Nat.mul_zero, Nat.zero_add,
        List.getElem?_append_left (by rw [hf]; exact hc)]
    | succ k' =>
      rw [List.getElem?_cons_succ] at hk
      rw [List.flatMap_cons,
        List.getElem?_append_right (by rw [hf]; omega)]
      rw [hf]
      have harith : 3 * (k' + 1) + c - 3 = 3 * k' + c := by omega
      rw [harith]
      exact ih k' hk

/-- The pixel visit order has `height · width` entries. -/
lemma pixelOrder_length (w h : ℕ) : (pixelOrder w h).length = h * w := by
  induction h with
  | zero => simp [pixelOrder]
  | succ n ih =>
    simp only [pixelOrder] at ih ⊢
    rw [List.range_succ, List.flatMap_append, List.length_append, ih]
    simp
    ring

/-- Pixel `(i, j)` is visited at position `i·w + j` of the scan order:
row index outer, column index inner. -/
lemma pixelOrder_getElem (w h i j : ℕ) (hi : i < h) (hj : j < w) :
    (pixelOrder w h)[i * w + j]? = some (i, j) := by
  induction h with
  | zero => omega
  | succ n ih =>
    simp only [pixelOrder] at ih ⊢
    rw [List.range_succ, List.flatMap_append]
    rcases Nat.lt_or_ge i n with h1 | h1
    · have hlen : i * w + j < ((List.range n).flatMap
          (fun i => (List.range w).map (fun j => (i, j)))).length := by
        have : i * w + j < n * w := by
          calc i * w + j < i * w + w := by omega
            _ = (i + 1) * w := by ring
            _ ≤ n * w := Nat.mul_le_mul_right w h1
        have hl := pixelOrder_length w n
        simp only [pixelOrder] at hl
        omega
      rw [List.getElem?_append_left hlen]
      exact ih h1
    · have hieq : i = n := by omega
      subst hieq
      have hlen : ((List.range i).flatMap
          (fun i => (List.range w).map (fun j => (i, j)))).length = i * w := by
        have hl := pixelOrder_length w i
        simp only [pixelOrder] at hl
        exact hl
      rw [List.getElem?_append_right (by omega), hlen]
      have harith : i * w + j - i * w = j := by omega
      rw [harith]
      simp [List.getElem?_map, List.getElem?_range hj]

/-- `process` unfolded to its destination-buffer contents. -/
lemma process_bytes_eq (st : DragoState) (img : Image) (e : ℝ) :
    (DragoOperator.process st img e).bytes =
      ((pixelOrder img.width img.height).map
        (fun ij => img.pix ij.1 ij.2)).flatMap
        (pixBytes e (atValue st "Gamma") (atValue st "Ldmax")
          (atValue st "Lwa") (atValue st "Lwmax") (atValue st "b")
          (atValue st "start") (atValue st "slope")) := by
  simp only [DragoOperator.process]
  rw [procFold_bytes]
  simp

/-- `map` does not depend on the exposure in exact real arithmetic: the
exposure factor introduced in the adapted average luminance cancels out of
the adapted maximum and the normalized input. -/
lemma map_exposure_cancel (v e gamma Ld Lwa Lwmax b stt sl : ℝ)
    (he : e ≠ 0) (hLwa : Lwa ≠ 0)
    (_hD : ((1 : ℝ) + b - 0.85) ^ (5 : ℝ) ≠ 0) :
    DragoOperator.map v e gamma Ld Lwa Lwmax b stt sl =
      DragoOperator.map v 1 gamma Ld Lwa Lwmax b stt sl := by
  simp only [DragoOperator.map]
  have h1 : e * Lwmax / (e * Lwa / ((1 + b - 0.85) ^ (5 : ℝ))) =
      1 * Lwmax / (1 * Lwa / ((1 + b - 0.85) ^ (5 : ℝ))) := by
    field_simp
    ring
  have h2 : e * v / (e * Lwa / ((1 + b - 0.85) ^ (5 : ℝ))) =
      1 * v / (1 * Lwa / ((1 + b - 0.85) ^ (5 : ℝ))) := by
    field_simp
    ring
  rw [h1, h2]

/-! ## Claim theorems -/

/-- C1: for every input value, exposure and parameter values, the CPU
`map` function computes exactly the eight-step Drago algorithm of
spec §4.3. -/
theorem map_follows_spec_algorithm (v e gamma Ld Lwa Lwmax b stt sl : ℝ) :
    DragoOperator.map v e gamma Ld Lwa Lwmax b stt sl =
      DragoOperator.specMap v e gamma Ld Lwa Lwmax b stt sl := by
  simp only [DragoOperator.map, DragoOperator.specMap, Real.log_div_log]
  rw [show ((5:ℝ)) = ((5:ℕ):ℝ) by norm_num, Real.rpow_natCast]

/-- C3: `graph` feeds the input through the identical `map` function with
exposure `1` and the parameter values currently stored in the operator,
exposing the raw result (no clamp, no quantization). -/
theorem graph_is_map_at_exposure_one (st : DragoState) (v : ℝ) :
    DragoOperator.graph st v =
      DragoOperator.map v 1 (atValue st "Gamma") (atValue st "Ldmax")
        (atValue st "Lwa") (atValue st "Lwmax") (atValue st "b")
        (atValue st "start") (atValue st "slope") := rfl

/-- C2 (divergence witness): at input `v = 4`, exposure `1`, parameters
`gamma = 0.9`, `Ldmax = 200`, `Lwa = 1`, `Lwmax = 4`, `b = 0.85`,
`start = 0.018`, `slope = 4.5`, the compressed value after step 7 is `2`;
the fragment shader clamps it to `1` BEFORE gamma correction and returns
`1`, while the CPU `map` gamma-corrects the unclamped `2` and returns
`2.099` — the two per-channel transforms are not identical. -/
theorem shader_clamps_before_gamma_diverges_from_map :
    DragoOperator.shaderMain 4 1 0.9 200 1 4 0.85 0.018 4.5 = 1 ∧
    DragoOperator.map 4 1 0.9 200 1 4 0.85 0.018 4.5 = 2.099 ∧
    DragoOperator.shaderMain 4 1 0.9 200 1 4 0.85 0.018 4.5 ≠
      DragoOperator.map 4 1 0.9 200 1 4 0.85 0.018 4.5 := by
  have h1 : DragoOperator.shaderMain 4 1 0.9 200 1 4 0.85 0.018 4.5 = 1 := by
    rw [shaderMain_selfmax 0.9 200 4 0.018 4.5 (by norm_num)]
    rw [show DragoOperator.clampedValue (0.01 * 200) = 1 by
      simp only [DragoOperator.clampedValue]; norm_num]
    simp only [DragoOperator.gammaCorrect]
    rw [if_neg (by norm_num : ¬ (1:ℝ) ≤ 0.018)]
    rw [show ((0.9:ℝ) / 0.9) = 1 by norm_num, Real.rpow_one]
    norm_num
  have h2 : DragoOperator.map 4 1 0.9 200 1 4 0.85 0.018 4.5 = 2.099 := by
    rw [map_selfmax 0.9 200 4 0.018 4.5 (by norm_num)]
    rw [if_neg (by norm_num : ¬ (0.01:ℝ) * 200 ≤ 0.018)]
    rw [show ((0.9:ℝ) / 0.9) = 1 by norm_num, Real.rpow_one]
    norm_num
  refine ⟨h1, h2, ?_⟩
  rw [h1, h2]
  norm_num

/-- C7 (counterexample to continuity): at the default parameters
`Gamma = 2.2`, `start = 0.018`, `slope = 4.5`, the gamma branch evaluated
at `value = start` exceeds the linear branch (which `gammaCorrect`
selects there) by more than `0.02` — the curve has a jump at `start`, so
the two branches do not agree within any tolerance below `0.02`. -/
theorem gamma_branches_disagree_at_start :
    (1.099 * 0.018 : ℝ) ^ ((0.9 : ℝ) / 2.2) - 0.099 -
      DragoOperator.gammaCorrect 2.2 0.018 4.5 0.018 > 0.02 := by
  have hval : DragoOperator.gammaCorrect 2.2 0.018 4.5 0.018 = 4.5 * 0.018 := by
    simp only [DragoOperator.gammaCorrect]
    rw [if_pos le_rfl]
  rw [hval]
  have := gamma_branch_lower_bound
  norm_num at this ⊢
  linarith

/-- `process` on a 1×1 image whose pixel is `(v, v, v)` at exposure `1`
writes, per channel, the truncated byte of `graph v`. -/
lemma process_monoImage_bytes (st : DragoState) (v : ℝ) :
    (DragoOperator.process st (monoImage v) 1).bytes =
      [quantByte (DragoOperator.graph st v), quantByte (DragoOperator.graph st v),
       quantByte (DragoOperator.graph st v)] := rfl

/-- In the `cexState` parameter assignment (`b = 0.85`, `Lwa = 1`,
`Lwmax = 4`, `Ldmax = 100`, `start = 2`, `slope = 0.5`), the preview
curve at `v = 4` evaluates to exactly `0.5`. -/
lemma graph_cexState_at_four : DragoOperator.graph cexState 4 = 0.5 := by
  have h : DragoOperator.graph cexState 4 =
      DragoOperator.map 4 1 2.2 100 1 4 0.85 2 0.5 := rfl
  rw [h, map_selfmax 2.2 100 4 2 0.5 (by norm_num),
    if_pos (show (0.01 : ℝ) * 100 ≤ 2 by norm_num)]
  norm_num

/-- C4 (amended): for a 1×1 image whose single pixel has linear value `v`
on all three channels, with exposure fixed at `1`, each 8-bit channel byte
written by `process` equals `⌊clamp(255·graph(v), 0, 255)⌋` — the clamped
value is truncated toward zero, not rounded to nearest. -/
theorem process_single_pixel_truncates (st : DragoState) (v : ℝ) :
    (DragoOperator.process st (monoImage v) 1).bytes =
      [quantByte (DragoOperator.graph st v), quantByte (DragoOperator.graph st v),
       quantByte (DragoOperator.graph st v)] :=
  process_monoImage_bytes st v

/-- C4 (counterexample): with the stored parameters of `cexState` the
preview curve gives `graph(4) = 0.5`; `process` writes the byte
`⌊127.5⌋ = 127`, while `round(clamp(graph(4),0,1)·255) = round 127.5 =
128` — the bytes written by `process` are not the rounded values. -/
theorem process_byte_is_not_rounded :
    (DragoOperator.process cexState (monoImage 4) 1).bytes = [127, 127, 127] ∧
    round (min (max (DragoOperator.graph cexState 4) 0) 1 * 255) = (128 : ℤ) ∧
    (127 : ℤ) ≠ 128 := by
  have hg := graph_cexState_at_four
  have hq : quantByte (0.5 : ℝ) = 127 := by
    simp only [quantByte]
    rw [show min (max ((255 : ℝ) * 0.5) 0) 255 = 127.5 by
      rw [max_eq_left (by norm_num), min_eq_left (by norm_num)]; norm_num]
    norm_num
  refine ⟨?_, ?_, by norm_num⟩
  · rw [process_monoImage_bytes cexState 4, hg, hq]
  · rw [hg]
    rw [show min (max (0.5 : ℝ) 0) 1 = 0.5 by
      rw [max_eq_left (by norm_num), min_eq_left (by norm_num)]]
    rw [show (0.5 : ℝ) * 255 = 127.5 by norm_num, round_eq]
    norm_num

/-- C5: over a `w×h` image with `w, h ≥ 1`, the progress sink starts at
`0`, then after the `k`-th pixel holds exactly `(k+1)/(w·h)` — so it is
non-decreasing throughout, and reaches exactly `1` after the final
pixel. -/
theorem process_progress_monotone_to_one (st : DragoState) (img : Image) (e : ℝ)
    (hw : 1 ≤ img.width) (hh : 1 ≤ img.height) :
    (DragoOperator.process st img e).trace =
      0 :: (List.range (img.width * img.height)).map
        (fun k : ℕ => ((k : ℝ) + 1) * (1 / ((img.width : ℝ) * (img.height : ℝ)))) ∧
    List.Pairwise (· ≤ ·) (DragoOperator.process st img e).trace ∧
    (DragoOperator.process st img e).trace.getLast? = some 1 := by
  have ht : (DragoOperator.process st img e).trace =
      0 :: (List.range (img.width * img.height)).map
        (fun k : ℕ => ((k : ℝ) + 1) * (1 / ((img.width : ℝ) * (img.height : ℝ)))) := by
    simp only [DragoOperator.process]
    rw [procFold_trace]
    simp only [List.length_map]
    rw [pixelOrder_length, Nat.mul_comm img.height img.width]
    simp [zero_add]
  refine ⟨ht, ?_, ?_⟩
  · rw [ht]
    refine List.pairwise_cons.mpr ⟨?_, ?_⟩
    · intro x hx
      simp only [List.mem_map, List.mem_range] at hx
      obtain ⟨k, _, rfl⟩ := hx
      positivity
    · refine List.Pairwise.map _ ?_ (List.pairwise_lt_range _)
      intro a b hab
      have hcast : (a : ℝ) + 1 ≤ (b : ℝ) + 1 := by
        have : (a : ℝ) ≤ (b : ℝ) := by exact_mod_cast hab.le
        linarith
      have hd : (0 : ℝ) ≤ 1 / ((img.width : ℝ) * (img.height : ℝ)) := by positivity
      exact mul_le_mul_of_nonneg_right hcast hd
  · rw [ht]
    have hne : img.width * img.height ≠ 0 :=
      Nat.mul_ne_zero (by omega) (by omega)
    obtain ⟨m, hm⟩ := Nat.exists_eq_succ_of_ne_zero hne
    rw [hm, List.range_succ, List.map_append, List.map_cons, List.map_nil,
      ← List.cons_append, List.getLast?_concat]
    have hcast : (img.width : ℝ) * (img.height : ℝ) = (m : ℝ) + 1 := by
      rw [← Nat.cast_mul, hm]
      push_cast
      ring
    rw [hcast, mul_one_div, div_self (by positivity)]

/-- C6: `process` writes exactly 3 bytes per pixel, R then G then B, in
row-major scan order (row outer, column inner): the bytes of pixel
`(i, j)` sit at offsets `3·(i·w + j)`, `3·(i·w + j) + 1`,
`3·(i·w + j) + 2` of the destination buffer. -/
theorem process_writes_rgb_row_major (st : DragoState) (img : Image) (e : ℝ)
    (i j : ℕ) (hi : i < img.height) (hj : j < img.width) :
    (DragoOperator.process st img e).bytes.length =
      3 * (img.width * img.height) ∧
    (DragoOperator.process st img e).bytes[3 * (i * img.width + j)]? =
      some (quantByte (DragoOperator.map (img.pix i j).1 e (atValue st "Gamma")
        (atValue st "Ldmax") (atValue st "Lwa") (atValue st "Lwmax")
        (atValue st "b") (atValue st "start") (atValue st "slope"))) ∧
    (DragoOperator.process st img e).bytes[3 * (i * img.width + j) + 1]? =
      some (quantByte (DragoOperator.map (img.pix i j).2.1 e (atValue st "Gamma")
        (atValue st "Ldmax") (atValue st "Lwa") (atValue st "Lwmax")
        (atValue st "b") (atValue st "start") (atValue st "slope"))) ∧
    (DragoOperator.process st img e).bytes[3 * (i * img.width + j) + 2]? =
      some (quantByte (DragoOperator.map (img.pix i j).2.2 e (atValue st "Gamma")
        (atValue st "Ldmax") (atValue st "Lwa") (atValue st "Lwmax")
        (atValue st "b") (atValue st "start") (atValue st "slope"))) := by
  have hpx : ((pixelOrder img.width img.height).map
      (fun ij => img.pix ij.1 ij.2))[i * img.width + j]? = some (img.pix i j) := by
    rw [List.getElem?_map, pixelOrder_getElem img.width img.height i j hi hj]
    rfl
  have h3 : ∀ px : ℝ × ℝ × ℝ, (pixBytes e (atValue st "Gamma")
      (atValue st "Ldmax") (atValue st "Lwa") (atValue st "Lwmax")
      (atValue st "b") (atValue st "start") (atValue st "slope") px).length = 3 :=
    fun px => rfl
  refine ⟨?_, ?_, ?_, ?_⟩
  · rw [process_bytes_eq, flatMap_length_three _ h3, List.length_map,
      pixelOrder_length]
    ring
  · rw [process_bytes_eq]
    have h0 := flatMap_getElem_three _ h3 _ _ _ hpx 0 (by omega)
    simpa [pixBytes] using h0
  · rw [process_bytes_eq]
    have h1 := flatMap_getElem_three _ h3 _ _ _ hpx 1 (by omega)
    simpa [pixBytes] using h1
  · rw [process_bytes_eq]
    have h2 := flatMap_getElem_three _ h3 _ _ _ hpx 2 (by omega)
    simpa [pixBytes] using h2

/-- C8: `setParameters` overwrites exactly the two image-dependent
entries `Lwa` and `Lwmax` with computed-form parameters holding the
image's log-average and maximum luminance; every other parameter entry,
the name, the description and the shader are unchanged, and repeated
calls overwrite the two statistics anew. -/
theorem setParameters_overwrites_only_statistics (st : DragoState)
    (img img2 : Image) (k : String) (h1 : k ≠ "Lwa") (h2 : k ≠ "Lwmax") :
    (setParameters st img).params "Lwa" =
      some (Parameter.computed img.logAverageLuminance "Lwa") ∧
    (setParameters st img).params "Lwmax" =
      some (Parameter.computed img.maximumLuminance "Lwmax") ∧
    (setParameters st img).params k = st.params k ∧
    (setParameters st img).name = st.name ∧
    (setParameters st img).description = st.description ∧
    (setParameters st img).shaderName = st.shaderName ∧
    (setParameters (setParameters st img) img2).params "Lwa" =
      some (Parameter.computed img2.logAverageLuminance "Lwa") ∧
    (setParameters (setParameters st img) img2).params "Lwmax" =
      some (Parameter.computed img2.maximumLuminance "Lwmax") := by
  refine ⟨?_, ?_, ?_, rfl, rfl, rfl, ?_, ?_⟩ <;>
    simp [DragoOperator.setParameters, h1, h2]

/-- C9: in exact real arithmetic the exposure cancels out of `map`
(for `e ≠ 0`, `Lwa ≠ 0`, nonzero bias denominator), and consequently
`process` writes the same pixel bytes at every such exposure. -/
theorem map_and_process_exposure_invariant :
    (∀ v e gamma Ld Lwa Lwmax b stt sl : ℝ,
      e ≠ 0 → Lwa ≠ 0 → ((1 : ℝ) + b - 0.85) ^ (5 : ℝ) ≠ 0 →
      DragoOperator.map v e gamma Ld Lwa Lwmax b stt sl =
        DragoOperator.map v 1 gamma Ld Lwa Lwmax b stt sl) ∧
    (∀ (st : DragoState) (img : Image) (e : ℝ),
      e ≠ 0 → atValue st "Lwa" ≠ 0 →
      ((1 : ℝ) + atValue st "b" - 0.85) ^ (5 : ℝ) ≠ 0 →
      (DragoOperator.process st img e).bytes =
        (DragoOperator.process st img 1).bytes) := by
  constructor
  · exact fun v e gamma Ld Lwa Lwmax b stt sl he hLwa hD =>
      map_exposure_cancel v e gamma Ld Lwa Lwmax b stt sl he hLwa hD
  · intro st img e he hLwa hD
    rw [process_bytes_eq, process_bytes_eq]
    have hfun : pixBytes e (atValue st "Gamma") (atValue st "Ldmax")
        (atValue st "Lwa") (atValue st "Lwmax") (atValue st "b")
        (atValue st "start") (atValue st "slope") =
        pixBytes 1 (atValue st "Gamma") (atValue st "Ldmax")
          (atValue st "Lwa") (atValue st "Lwmax") (atValue st "b")
          (atValue st "start") (atValue st "slope") := by
      funext px
      simp only [pixBytes]
      rw [map_exposure_cancel _ e _ _ _ _ _ _ _ he hLwa hD,
        map_exposure_cancel _ e _ _ _ _ _ _ _ he hLwa hD,
        map_exposure_cancel _ e _ _ _ _ _ _ _ he hLwa hD]
    rw [hfun]

/-- C10: on an image with zero pixels, `process` writes `0` to the
progress sink, runs no loop iteration, writes no bytes, and returns with
the progress still `0` — it never reaches `1`. -/
theorem process_empty_image_progress_stuck (st : DragoState) (img : Image)
    (e : ℝ) (h0 : img.width * img.height = 0) :
    (DragoOperator.process st img e).bytes = [] ∧
    (DragoOperator.process st img e).trace = [0] ∧
    (DragoOperator.process st img e).progress = 0 ∧
    (DragoOperator.process st img e).progress ≠ 1 := by
  have hpo : pixelOrder img.width img.height = [] := by
    apply List.eq_nil_of_length_eq_zero
    rw [pixelOrder_length]
    rcases Nat.mul_eq_zero.mp h0 with h | h <;> simp [h]
  refine ⟨?_, ?_, ?_, ?_⟩ <;> simp [DragoOperator.process, hpo]

/-! ## Witnesses -/

/-- Witness for C5 at a concrete 1×1 image. -/
theorem process_progress_monotone_to_one_witness :
    (DragoOperator.process cexState (monoImage 4) 1).trace =
      0 :: (List.range ((monoImage 4).width * (monoImage 4).height)).map
        (fun k : ℕ => ((k : ℝ) + 1) *
          (1 / (((monoImage 4).width : ℝ) * ((monoImage 4).height : ℝ)))) ∧
    List.Pairwise (· ≤ ·) (DragoOperator.process cexState (monoImage 4) 1).trace ∧
    (DragoOperator.process cexState (monoImage 4) 1).trace.getLast? = some 1 :=
  process_progress_monotone_to_one cexState (monoImage 4) 1 (by decide) (by decide)

/-- Witness for C6 at pixel `(1, 2)` of a concrete 3×2 image. -/
theorem process_writes_rgb_row_major_witness :
    (DragoOperator.process cexState gridImage 1).bytes.length =
      3 * (gridImage.width * gridImage.height) ∧
    (DragoOperator.process cexState gridImage 1).bytes[3 * (1 * gridImage.width + 2)]? =
      some (quantByte (DragoOperator.map (gridImage.pix 1 2).1 1
        (atValue cexState "Gamma") (atValue cexState "Ldmax")
        (atValue cexState "Lwa") (atValue cexState "Lwmax")
        (atValue cexState "b") (atValue cexState "start")
        (atValue cexState "slope"))) ∧
    (DragoOperator.process cexState gridImage 1).bytes[3 * (1 * gridImage.width + 2) + 1]? =
      some (quantByte (DragoOperator.map (gridImage.pix 1 2).2.1 1
        (atValue cexState "Gamma") (atValue cexState "Ldmax")
        (atValue cexState "Lwa") (atValue cexState "Lwmax")
        (atValue cexState "b") (atValue cexState "start")
        (atValue cexState "slope"))) ∧
    (DragoOperator.process cexState gridImage 1).bytes[3 * (1 * gridImage.width + 2) + 2]? =
      some (quantByte (DragoOperator.map (gridImage.pix 1 2).2.2 1
        (atValue cexState "Gamma") (atValue cexState "Ldmax")
        (atValue cexState "Lwa") (atValue cexState "Lwmax")
        (atValue cexState "b") (atValue cexState "start")
        (atValue cexState "slope"))) :=
  process_writes_rgb_row_major cexState gridImage 1 1 2 (by decide) (by decide)

/-- Witness for C8 at the freshly constructed operator, the key
`"Gamma"`, and a concrete image. -/
theorem setParameters_overwrites_only_statistics_witness :
    (setParameters construct gridImage).params "Lwa" =
      some (Parameter.computed gridImage.logAverageLuminance "Lwa") ∧
    (setParameters construct gridImage).params "Gamma" = construct.params "Gamma" :=
  ⟨(setParameters_overwrites_only_statistics construct gridImage gridImage "Gamma"
      (by decide) (by decide)).1,
   (setParameters_overwrites_only_statistics construct gridImage gridImage "Gamma"
      (by decide) (by decide)).2.2.1⟩

/-- Witness for C9 at exposure `2` and a concrete parameter state. -/
theorem map_and_process_exposure_invariant_witness :
    DragoOperator.map 0.1 2 2.2 100 1 4 0.85 0.018 4.5 =
      DragoOperator.map 0.1 1 2.2 100 1 4 0.85 0.018 4.5 ∧
    (DragoOperator.process cexState gridImage 2).bytes =
      (DragoOperator.process cexState gridImage 1).bytes := by
  constructor
  · exact map_and_process_exposure_invariant.1 0.1 2 2.2 100 1 4 0.85 0.018 4.5
      (by norm_num) (by norm_num)
      (by rw [show (1 : ℝ) + 0.85 - 0.85 = 1 by norm_num, Real.one_rpow]; norm_num)
  · exact map_and_process_exposure_invariant.2 cexState gridImage 2
      (by norm_num)
      (by rw [show atValue cexState "Lwa" = (1 : ℝ) from rfl]; norm_num)
      (by rw [show atValue cexState "b" = (0.85 : ℝ) from rfl,
            show (1 : ℝ) + 0.85 - 0.85 = 1 by norm_num, Real.one_rpow]; norm_num)

/-- Witness for C10 at a concrete zero-width image. -/
theorem process_empty_image_progress_stuck_witness :
    (DragoOperator.process cexState emptyImage 1).bytes = [] ∧
    (DragoOperator.process cexState emptyImage 1).trace = [0] ∧
    (DragoOperator.process cexState emptyImage 1).progress = 0 ∧
    (DragoOperator.process cexState emptyImage 1).progress ≠ 1 :=
  process_empty_image_progress_stuck cexState emptyImage 1 (by decide)

/-- C7 (amended): the branch condition of the gamma-correction step uses
`≤`, so at `value` exactly equal to `start` the linear branch
`slope·value` is selected; but the function is NOT continuous there for
the default parameters — the gamma branch exceeds the linear branch at
`start` by more than `0.02`. -/
theorem gammaCorrect_at_start_linear_but_jump :
    (∀ gamma stt sl : ℝ, DragoOperator.gammaCorrect gamma stt sl stt = sl * stt) ∧
    (1.099 * 0.018 : ℝ) ^ ((0.9 : ℝ) / 2.2) - 0.099 - 4.5 * 0.018 > 0.02 := by
  constructor
  · intro gamma stt sl
    simp only [DragoOperator.gammaCorrect]
    rw [if_pos le_rfl]
  · have := gamma_branch_lower_bound
    norm_num at this ⊢
    linarith

end
